import Mathlib

/-!
Verification of the core of `fc_statistic.py` (ReInspect): the
overlap-union geometry primitive, the grid decoder inside `get_accuracy`,
and the accuracy-evaluation loop.

Modelling conventions:
* Python floats are modelled as rationals (`ℚ`); all arithmetic appearing
  in the claims is exact, so this is faithful.
* The repository is Python 2 code (it calls `generator.next()`), so `/` on
  two Python ints is floor division; we model it with `Int.fdiv`, which
  agrees with Python's `//` for every nonzero divisor.
* Python's `int(f)` on a float truncates toward zero; we model it as
  `truncQ`.
* A Python `ZeroDivisionError` (raised by `SI/SU` when `SU == 0`, and
  propagated out of the evaluation loop) is modelled by `Option`: `none`
  is the exceptional outcome.
* The network forward pass and `stitch_rects` live in external modules
  (`apollocaffe`, `utils`), so the evaluator is parameterised by their
  outputs: the stitched rectangle list and the ground-truth annotation
  list, exactly the data read by lines 50-65 of the source.
-/

set_option linter.unusedVariables false

namespace ReInspect

/-- Python `int()` on a float: truncation toward zero. -/
def truncQ (q : ℚ) : ℤ := if 0 ≤ q then ⌊q⌋ else ⌈q⌉

/-- Embedding of `overlap_union(x1,y1,x2,y2,x3,y3,x4,y4)` (source lines
22-25).  `SI` is the clamped intersection area, `SU` the
inclusion-exclusion union area, and the function returns `SI/SU`; Python
raises `ZeroDivisionError` when `SU == 0`, modelled as `none`. -/
def overlap_union (x1 y1 x2 y2 x3 y3 x4 y4 : ℚ) : Option ℚ :=
  let SI := max 0 (min x2 x4 - max x1 x3) * max 0 (min y2 y4 - max y1 y3)
  let SU := (x2 - x1) * (y2 - y1) + (x4 - x3) * (y4 - y3) - SI
  if SU = 0 then none else some (SI / SU)

/-- Rectangle as constructed by the grid decoder at source line 47:
`Rect(abs_cx, abs_cy, w, h, conf)`. -/
structure Rect where
  cx : ℚ
  cy : ℚ
  width : ℚ
  height : ℚ
  confidence : ℚ

/-- Stitched rectangle as read by the evaluation loop (source lines
51-58): centre/size fields plus the consolidated `true_confidence`
attached by the external `stitch_rects`. -/
structure StitchedRect where
  cx : ℚ
  cy : ℚ
  width : ℚ
  height : ℚ
  true_confidence : ℚ

/-- Ground-truth rectangle in corner form, as read from the annotation
at source line 60 (`r.x1, r.y1, r.x2, r.y2`). -/
structure AnnoRect where
  x1 : ℚ
  y1 : ℚ
  x2 : ℚ
  y2 : ℚ

/-- The grid/image configuration entries used by `get_accuracy`; the
values come from a JSON config, hence Python ints. -/
structure NetConfig where
  img_width : ℤ
  img_height : ℤ
  grid_width : ℤ
  grid_height : ℤ

/-- Raw per-step regression output for one cell: `bbox[0,0,0]`,
`bbox[1,0,0]`, `bbox[2,0,0]`, `bbox[3,0,0]`. -/
structure RawBox where
  dx : ℚ
  dy : ℚ
  w : ℚ
  h : ℚ

/-- Embedding of the grid decoder, source lines 33-34 and 43-47.  With
Python-2 integer division, `pix_per_w = img_width/grid_width` and
`pix_per_w/2` are floor divisions, and `int(bbox[0,0,0])` truncates the
raw offset toward zero.  `conf` is the already softmax-normalised 2-way
confidence pair `(conf_list[n][k,0], conf_list[n][k,1])`; line 42 reads
component 1. -/
def decode_cell_rect (cfg : NetConfig) (x y : ℤ) (bbox : RawBox) (conf : ℚ × ℚ) : Rect :=
  let pix_per_w := cfg.img_width.fdiv cfg.grid_width
  let pix_per_h := cfg.img_height.fdiv cfg.grid_height
  { cx := ((pix_per_w.fdiv 2 + pix_per_w * x + truncQ bbox.dx : ℤ) : ℚ)
    cy := ((pix_per_h.fdiv 2 + pix_per_h * y + truncQ bbox.dy : ℤ) : ℚ)
    width := bbox.w
    height := bbox.h
    confidence := conf.2 }

/-- Inner loop of the evaluator (source lines 59-63): scan the
ground-truth list; on the first box with `overlap_union ≥ 0.5` stop with
`true`; a `ZeroDivisionError` inside `overlap_union` propagates
(`none`). -/
def anno_overlaps (x1 y1 x2 y2 : ℚ) : List AnnoRect → Option Bool
  | [] => some false
  | r :: rs =>
    match overlap_union x1 y1 x2 y2 r.x1 r.y1 r.x2 r.y2 with
    | none => none
    | some o_u => if 1/2 ≤ o_u then some true else anno_overlaps x1 y1 x2 y2 rs

/-- Outer loop of the evaluator (source lines 50-63): skip stitched
rectangles with `true_confidence < 0.9`; for each remaining one convert
to corner form and add 1 to `count_cover` when some ground-truth box
reaches overlap 0.5. -/
def count_cover (anno : List AnnoRect) : List StitchedRect → Option ℕ
  | [] => some 0
  | rect :: rest =>
    if rect.true_confidence < 9/10 then count_cover anno rest
    else
      match anno_overlaps (rect.cx - rect.width / 2) (rect.cy - rect.height / 2)
          (rect.cx + rect.width / 2) (rect.cy + rect.height / 2) anno with
      | none => none
      | some true => (count_cover anno rest).map (· + 1)
      | some false => count_cover anno rest

/-- Embedding of `get_accuracy` from the stitched rectangles on (source
lines 29-32, 49-65): returns `(count_cover, count)` where `count` is the
number of ground-truth boxes. -/
def get_accuracy (acc_rects : List StitchedRect) (anno : List AnnoRect) : Option (ℕ × ℕ) :=
  (count_cover anno acc_rects).map (fun c => (c, anno.length))

/-- The threshold test of source line 52, as the evaluator's keep
predicate. -/
def high_conf (r : StitchedRect) : Bool := decide ((9 : ℚ)/10 ≤ r.true_confidence)

/-- C1: at two zero-size rectangles the union area `SU` is `0`, and
`overlap_union` evaluates `SI/SU`, i.e. raises `ZeroDivisionError`
(modelled as `none`) instead of returning `0` as the spec requires. -/
theorem overlap_union_zero_union_faults :
    overlap_union 0 0 0 0 0 0 0 0 = none := by
  norm_num [overlap_union]

/-- C7 counterexample: the rectangles `(0,0)-(0,0)` and `(5,5)-(5,5)`
have no spatial intersection, yet `overlap_union` does not return `0`
for them (the union area is `0`, so it faults). -/
theorem overlap_union_disjoint_degenerate :
    overlap_union 0 0 0 0 5 5 5 5 = none ∧
      overlap_union 0 0 0 0 5 5 5 5 ≠ some 0 := by
  have h : overlap_union 0 0 0 0 5 5 5 5 = none := by
    norm_num [overlap_union, min_def, max_def]
  exact ⟨h, by simp [h]⟩

/-- C7 amended: for two well-formed rectangles with no spatial
intersection, `overlap_union` returns `0` provided the union area is
positive (at least one rectangle is non-degenerate). -/
theorem overlap_union_disjoint_eq_zero
    (x1 y1 x2 y2 x3 y3 x4 y4 : ℚ)
    (hr1x : x1 ≤ x2) (hr1y : y1 ≤ y2) (hr2x : x3 ≤ x4) (hr2y : y3 ≤ y4)
    (hdisj : x2 ≤ x3 ∨ x4 ≤ x1 ∨ y2 ≤ y3 ∨ y4 ≤ y1)
    (harea : 0 < (x2 - x1) * (y2 - y1) + (x4 - x3) * (y4 - y3)) :
    overlap_union x1 y1 x2 y2 x3 y3 x4 y4 = some 0 := by
  have hSI : max 0 (min x2 x4 - max x1 x3) * max 0 (min y2 y4 - max y1 y3) = 0 := by
    rcases hdisj with h | h | h | h
    · have hle : min x2 x4 - max x1 x3 ≤ 0 := by
        have h1 : min x2 x4 ≤ x2 := min_le_left _ _
        have h2 : x3 ≤ max x1 x3 := le_max_right _ _
        linarith
      rw [max_eq_left hle, zero_mul]
    · have hle : min x2 x4 - max x1 x3 ≤ 0 := by
        have h1 : min x2 x4 ≤ x4 := min_le_right _ _
        have h2 : x1 ≤ max x1 x3 := le_max_left _ _
        linarith
      rw [max_eq_left hle, zero_mul]
    · have hle : min y2 y4 - max y1 y3 ≤ 0 := by
        have h1 : min y2 y4 ≤ y2 := min_le_left _ _
        have h2 : y3 ≤ max y1 y3 := le_max_right _ _
        linarith
      rw [max_eq_left hle, mul_zero]
    · have hle : min y2 y4 - max y1 y3 ≤ 0 := by
        have h1 : min y2 y4 ≤ y4 := min_le_right _ _
        have h2 : y1 ≤ max y1 y3 := le_max_left _ _
        linarith
      rw [max_eq_left hle, mul_zero]
  simp only [overlap_union, hSI, sub_zero, zero_div]
  rw [if_neg harea.ne']

/-- C7 witness: two concrete disjoint unit squares give overlap `0`. -/
theorem overlap_union_disjoint_eq_zero_witness :
    overlap_union 0 0 1 1 2 2 3 3 = some 0 :=
  overlap_union_disjoint_eq_zero 0 0 1 1 2 2 3 3
    (by norm_num) (by norm_num) (by norm_num) (by norm_num)
    (Or.inl (by norm_num)) (by norm_num)

/-- C8: `overlap_union` of a non-degenerate rectangle with itself is
exactly `1`. -/
theorem overlap_union_self (x1 y1 x2 y2 : ℚ) (hx : x1 < x2) (hy : y1 < y2) :
    overlap_union x1 y1 x2 y2 x1 y1 x2 y2 = some 1 := by
  have hw : (0 : ℚ) ≤ x2 - x1 := by linarith
  have hh : (0 : ℚ) ≤ y2 - y1 := by linarith
  have hA : (0 : ℚ) < (x2 - x1) * (y2 - y1) := mul_pos (by linarith) (by linarith)
  have hSU : (x2 - x1) * (y2 - y1) + (x2 - x1) * (y2 - y1) - (x2 - x1) * (y2 - y1)
      = (x2 - x1) * (y2 - y1) := by ring
  simp only [overlap_union, min_self, max_self, max_eq_right hw, max_eq_right hh, hSU]
  rw [if_neg hA.ne', div_self hA.ne']

/-- C8 witness: the unit square overlapped with itself gives `1`. -/
theorem overlap_union_self_witness :
    overlap_union 0 0 1 1 0 0 1 1 = some 1 :=
  overlap_union_self 0 0 1 1 (by norm_num) (by norm_num)

/-- Bridge lemma: floor division by 2 on the integers agrees with the
rational floor. -/
lemma fdiv_two_eq_floor (p : ℤ) : (p.fdiv 2 : ℤ) = ⌊(p : ℚ) / 2⌋ := by
  rw [Int.fdiv_eq_ediv _ (by norm_num)]
  have h2 : ((2 : ℕ) : ℚ) = (2 : ℚ) := by norm_num
  rw [← h2, Rat.floor_intCast_div_natCast]
  norm_num

/-- Helper: Python `int()` of `0` is `0`. -/
lemma truncQ_zero : truncQ 0 = 0 := by simp [truncQ]

/-- C3 counterexample: for the 20x20 image on a 2x2 grid, cell `(0,0)`
and raw offset `dx = 1/2`, the decoded centre is `5`, not
`pixels_per_cell_w/2 + pixels_per_cell_w*0 + dx = 5 + 1/2`: the raw
offset is truncated by `int()` before being added. -/
theorem decode_cell_rect_truncates_dx :
    (decode_cell_rect ⟨20, 20, 2, 2⟩ 0 0 ⟨1/2, 0, 3, 4⟩ (0, 1)).cx
      ≠ (20 : ℚ) / 2 / 2 + (20 : ℚ) / 2 * 0 + 1/2 := by
  have hf : ((20 : ℤ).fdiv 2).fdiv 2 = 5 := by decide
  have ht : truncQ (1/2) = 0 := by norm_num [truncQ]
  simp only [decode_cell_rect, hf, ht]
  norm_num

/-- C3 amended: for every cell `(x, y)` of a well-formed grid, the
decoded rectangle has centre
`pix_per_w/2 + pix_per_w*x + int(dx)` and
`pix_per_h/2 + pix_per_h*y + int(dy)`, where both divisions are Python-2
integer floor divisions and `int()` truncates toward zero; width and
height pass through unchanged, and the confidence is component 1 of the
softmax-normalised confidence pair. -/
theorem decode_cell_rect_eq (cfg : NetConfig) (x y : ℤ) (bbox : RawBox) (conf : ℚ × ℚ)
    (hgw : 0 < cfg.grid_width) (hgh : 0 < cfg.grid_height) :
    (decode_cell_rect cfg x y bbox conf).cx
        = (((cfg.img_width.fdiv cfg.grid_width).fdiv 2 : ℤ) : ℚ)
          + ((cfg.img_width.fdiv cfg.grid_width : ℤ) : ℚ) * (x : ℚ) + (truncQ bbox.dx : ℚ)
      ∧ (decode_cell_rect cfg x y bbox conf).cy
        = (((cfg.img_height.fdiv cfg.grid_height).fdiv 2 : ℤ) : ℚ)
          + ((cfg.img_height.fdiv cfg.grid_height : ℤ) : ℚ) * (y : ℚ) + (truncQ bbox.dy : ℚ)
      ∧ (decode_cell_rect cfg x y bbox conf).width = bbox.w
      ∧ (decode_cell_rect cfg x y bbox conf).height = bbox.h
      ∧ (decode_cell_rect cfg x y bbox conf).confidence = conf.2 := by
  refine ⟨?_, ?_, rfl, rfl, rfl⟩ <;>
    · simp only [decode_cell_rect]
      push_cast
      ring

/-- C3 witness: the amended decoding equations at a concrete cell. -/
theorem decode_cell_rect_eq_witness :
    (decode_cell_rect ⟨640, 480, 20, 15⟩ 3 2 ⟨7/2, 5, 8, 16⟩ (1/4, 3/4)).cx
        = ((((640 : ℤ).fdiv 20).fdiv 2 : ℤ) : ℚ)
          + (((640 : ℤ).fdiv 20 : ℤ) : ℚ) * ((3 : ℤ) : ℚ) + (truncQ (7/2) : ℚ)
      ∧ (decode_cell_rect ⟨640, 480, 20, 15⟩ 3 2 ⟨7/2, 5, 8, 16⟩ (1/4, 3/4)).cy
        = ((((480 : ℤ).fdiv 15).fdiv 2 : ℤ) : ℚ)
          + (((480 : ℤ).fdiv 15 : ℤ) : ℚ) * ((2 : ℤ) : ℚ) + (truncQ 5 : ℚ)
      ∧ (decode_cell_rect ⟨640, 480, 20, 15⟩ 3 2 ⟨7/2, 5, 8, 16⟩ (1/4, 3/4)).width = 8
      ∧ (decode_cell_rect ⟨640, 480, 20, 15⟩ 3 2 ⟨7/2, 5, 8, 16⟩ (1/4, 3/4)).height = 16
      ∧ (decode_cell_rect ⟨640, 480, 20, 15⟩ 3 2 ⟨7/2, 5, 8, 16⟩ (1/4, 3/4)).confidence = 3/4 :=
  decode_cell_rect_eq ⟨640, 480, 20, 15⟩ 3 2 ⟨7/2, 5, 8, 16⟩ (1/4, 3/4)
    (by norm_num) (by norm_num)

/-- C4 counterexample: for the 30x30 image on a 4x4 grid (so 30/4 does
not divide evenly) and cell `(0,0)` with zero offset, the decoded centre
is `3`, not the cell's geometric centre
`(img_width/grid_width)*(0 + 1/2) = 30/4/2`. -/
theorem decode_center_not_geometric :
    (decode_cell_rect ⟨30, 30, 4, 4⟩ 0 0 ⟨0, 0, 8, 8⟩ (0, 1)).cx
      ≠ ((30 : ℚ) / 4) * ((0 : ℚ) + 1/2) := by
  have hf : ((30 : ℤ).fdiv 4).fdiv 2 = 3 := by decide
  simp only [decode_cell_rect, hf, truncQ_zero]
  norm_num

/-- C4 amended: for every cell `(x, y)` of a well-formed grid and zero
raw offset, the decoded centre is the floor of the cell's geometric
centre: `(⌊pix_per_w*(x + 1/2)⌋, ⌊pix_per_h*(y + 1/2)⌋)`, where
`pix_per_w = ⌊img_width/grid_width⌋` and
`pix_per_h = ⌊img_height/grid_height⌋` (Python-2 integer division). -/
theorem decode_center_zero_offset (cfg : NetConfig) (x y : ℤ) (w h : ℚ) (conf : ℚ × ℚ)
    (hgw : 0 < cfg.grid_width) (hgh : 0 < cfg.grid_height) :
    (decode_cell_rect cfg x y ⟨0, 0, w, h⟩ conf).cx
        = ((⌊((cfg.img_width.fdiv cfg.grid_width : ℤ) : ℚ) * ((x : ℚ) + 1/2)⌋ : ℤ) : ℚ)
      ∧ (decode_cell_rect cfg x y ⟨0, 0, w, h⟩ conf).cy
        = ((⌊((cfg.img_height.fdiv cfg.grid_height : ℤ) : ℚ) * ((y : ℚ) + 1/2)⌋ : ℤ) : ℚ) := by
  constructor
  · have hsplit : ((cfg.img_width.fdiv cfg.grid_width : ℤ) : ℚ) * ((x : ℚ) + 1/2)
        = ((cfg.img_width.fdiv cfg.grid_width * x : ℤ) : ℚ)
          + ((cfg.img_width.fdiv cfg.grid_width : ℤ) : ℚ) / 2 := by
      push_cast
      ring
    rw [hsplit, Int.floor_int_add, ← fdiv_two_eq_floor]
    simp only [decode_cell_rect, truncQ_zero]
    push_cast
    ring
  · have hsplit : ((cfg.img_height.fdiv cfg.grid_height : ℤ) : ℚ) * ((y : ℚ) + 1/2)
        = ((cfg.img_height.fdiv cfg.grid_height * y : ℤ) : ℚ)
          + ((cfg.img_height.fdiv cfg.grid_height : ℤ) : ℚ) / 2 := by
      push_cast
      ring
    rw [hsplit, Int.floor_int_add, ← fdiv_two_eq_floor]
    simp only [decode_cell_rect, truncQ_zero]
    push_cast
    ring

/-- C4 witness: the amended zero-offset decoding at a concrete cell. -/
theorem decode_center_zero_offset_witness :
    (decode_cell_rect ⟨20, 20, 2, 2⟩ 1 0 ⟨0, 0, 8, 8⟩ (0, 1)).cx
        = ((⌊(((20 : ℤ).fdiv 2 : ℤ) : ℚ) * ((1 : ℚ) + 1/2)⌋ : ℤ) : ℚ)
      ∧ (decode_cell_rect ⟨20, 20, 2, 2⟩ 1 0 ⟨0, 0, 8, 8⟩ (0, 1)).cy
        = ((⌊(((20 : ℤ).fdiv 2 : ℤ) : ℚ) * ((0 : ℚ) + 1/2)⌋ : ℤ) : ℚ) := by
  have h := decode_center_zero_offset ⟨20, 20, 2, 2⟩ 1 0 8 8 (0, 1)
    (by norm_num) (by norm_num)
  exact ⟨h.1, h.2⟩

/-- C9: the raw centre offsets are truncated to integers before being
added (so the decoded centre differs from the cell base coordinate
`pix_per/2 + pix_per*index` by the integer `int(offset)`), while width
and height are used untruncated. -/
theorem decode_offset_truncated (cfg : NetConfig) (x y : ℤ) (bbox : RawBox) (conf : ℚ × ℚ)
    (hgw : 0 < cfg.grid_width) (hgh : 0 < cfg.grid_height) :
    (decode_cell_rect cfg x y bbox conf).width = bbox.w
  ∧ (decode_cell_rect cfg x y bbox conf).height = bbox.h
  ∧ (decode_cell_rect cfg x y bbox conf).cx
      - (((cfg.img_width.fdiv cfg.grid_width).fdiv 2
          + cfg.img_width.fdiv cfg.grid_width * x : ℤ) : ℚ)
      = ((truncQ bbox.dx : ℤ) : ℚ)
  ∧ (decode_cell_rect cfg x y bbox conf).cy
      - (((cfg.img_height.fdiv cfg.grid_height).fdiv 2
          + cfg.img_height.fdiv cfg.grid_height * y : ℤ) : ℚ)
      = ((truncQ bbox.dy : ℤ) : ℚ) := by
  refine ⟨rfl, rfl, ?_, ?_⟩ <;>
    · simp only [decode_cell_rect]
      push_cast
      ring

/-- C9 witness: the truncation equations at a concrete cell. -/
theorem decode_offset_truncated_witness :
    (decode_cell_rect ⟨20, 20, 2, 2⟩ 0 1 ⟨5/2, 7, 3, 4⟩ (0, 1)).width = 3
  ∧ (decode_cell_rect ⟨20, 20, 2, 2⟩ 0 1 ⟨5/2, 7, 3, 4⟩ (0, 1)).height = 4
  ∧ (decode_cell_rect ⟨20, 20, 2, 2⟩ 0 1 ⟨5/2, 7, 3, 4⟩ (0, 1)).cx
      - ((((20 : ℤ).fdiv 2).fdiv 2 + (20 : ℤ).fdiv 2 * 0 : ℤ) : ℚ)
      = ((truncQ (5/2) : ℤ) : ℚ)
  ∧ (decode_cell_rect ⟨20, 20, 2, 2⟩ 0 1 ⟨5/2, 7, 3, 4⟩ (0, 1)).cy
      - ((((20 : ℤ).fdiv 2).fdiv 2 + (20 : ℤ).fdiv 2 * 1 : ℤ) : ℚ)
      = ((truncQ 7 : ℤ) : ℚ) :=
  decode_offset_truncated ⟨20, 20, 2, 2⟩ 0 1 ⟨5/2, 7, 3, 4⟩ (0, 1)
    (by norm_num) (by norm_num)

/-- Helper: with an empty ground-truth list the inner loop never fires,
so the outer loop counts nothing. -/
lemma count_cover_anno_nil : ∀ dets : List StitchedRect, count_cover [] dets = some 0 := by
  intro dets
  induction dets with
  | nil => rfl
  | cons rect rest ih =>
    by_cases h : rect.true_confidence < 9/10
    · simp [count_cover, h, ih]
    · simp [count_cover, h, anno_overlaps, ih]

/-- Helper: a below-threshold rectangle fails the keep predicate. -/
lemma high_conf_false {r : StitchedRect} (h : r.true_confidence < 9/10) :
    high_conf r = false := by
  simp only [high_conf, decide_eq_false_iff_not]
  exact not_le.mpr h

/-- Helper: an above-threshold rectangle passes the keep predicate. -/
lemma high_conf_true {r : StitchedRect} (h : ¬ r.true_confidence < 9/10) :
    high_conf r = true := by
  simp only [high_conf, decide_eq_true_eq]
  exact not_lt.mp h

/-- Helper: dropping the below-threshold rectangles first does not change
the outer loop's outcome. -/
lemma count_cover_filter_high_conf (anno : List AnnoRect) :
    ∀ dets : List StitchedRect,
      count_cover anno (dets.filter high_conf) = count_cover anno dets := by
  intro dets
  induction dets with
  | nil => rfl
  | cons rect rest ih =>
    by_cases h : rect.true_confidence < 9/10
    · rw [List.filter_cons, high_conf_false h]
      simp only [Bool.false_eq_true, if_false]
      rw [ih]
      simp [count_cover, h]
    · rw [List.filter_cons, high_conf_true h]
      simp only [if_true]
      simp only [count_cover, if_neg h]
      rcases hov : anno_overlaps (rect.cx - rect.width / 2) (rect.cy - rect.height / 2)
          (rect.cx + rect.width / 2) (rect.cy + rect.height / 2) anno with _ | b
      · simp
      · cases b <;> simp [ih]

/-- Helper: whenever the outer loop terminates normally, its count is at
most the number of rectangles that pass the keep predicate. -/
lemma count_cover_le_high_conf_length (anno : List AnnoRect) :
    ∀ (dets : List StitchedRect) (c : ℕ), count_cover anno dets = some c →
      c ≤ (dets.filter high_conf).length := by
  intro dets
  induction dets with
  | nil =>
    intro c hc
    simp only [count_cover, Option.some_inj] at hc
    simp [← hc]
  | cons rect rest ih =>
    intro c hc
    simp only [count_cover] at hc
    by_cases h : rect.true_confidence < 9/10
    · rw [if_pos h] at hc
      rw [List.filter_cons, high_conf_false h]
      simp only [Bool.false_eq_true, if_false]
      exact ih c hc
    · rw [if_neg h] at hc
      rw [List.filter_cons, high_conf_true h]
      simp only [if_true, List.length_cons]
      rcases hov : anno_overlaps (rect.cx - rect.width / 2) (rect.cy - rect.height / 2)
          (rect.cx + rect.width / 2) (rect.cy + rect.height / 2) anno with _ | b
      · rw [hov] at hc
        simp at hc
      · rw [hov] at hc
        cases b
        · simp only at hc
          exact le_trans (ih c hc) (Nat.le_succ _)
        · simp only [Option.map_eq_some'] at hc
          obtain ⟨c', hc', rfl⟩ := hc
          exact Nat.succ_le_succ (ih c' hc')

/-- C6: with an empty ground-truth annotation list the evaluator returns
`(0, 0)`. -/
theorem get_accuracy_empty_anno (dets : List StitchedRect) :
    get_accuracy dets [] = some (0, 0) := by
  simp [get_accuracy, count_cover_anno_nil]

/-- C5: detections below the `0.9` threshold never affect the evaluator:
the result equals the result on the above-threshold detections alone;
in particular one ground-truth box and one spatially identical detection
with `true_confidence = 0.5` yield `(0, 1)`. -/
theorem get_accuracy_threshold_filter :
    (∀ (dets : List StitchedRect) (anno : List AnnoRect),
        get_accuracy (dets.filter high_conf) anno = get_accuracy dets anno)
    ∧ get_accuracy [⟨5, 5, 10, 10, 1/2⟩] [⟨0, 0, 10, 10⟩] = some (0, 1) := by
  constructor
  · intro dets anno
    simp [get_accuracy, count_cover_filter_high_conf]
  · norm_num [get_accuracy, count_cover]

/-- C2 counterexample: one ground-truth box and two identical confident
detections covering it give `coveredCount = 2 > 1 = totalGroundTruthCount`
(the `break` only stops one detection's inner loop; a ground-truth box
can be counted once per detection). -/
theorem get_accuracy_cover_exceeds_gt :
    get_accuracy [⟨5, 5, 10, 10, 1⟩, ⟨5, 5, 10, 10, 1⟩] [⟨0, 0, 10, 10⟩] = some (2, 1)
      ∧ ¬ (2 ≤ 1) := by
  constructor
  · norm_num [get_accuracy, count_cover, anno_overlaps, overlap_union, min_def, max_def]
  · norm_num

/-- C2 amended: each above-threshold detection increments the cover count
at most once (its inner ground-truth loop stops at the first overlap
`≥ 0.5`), so `coveredCount` never exceeds the number of detections with
`true_confidence ≥ 0.9`; it can exceed `totalGroundTruthCount`. -/
theorem count_cover_le_kept_detections (dets : List StitchedRect) (anno : List AnnoRect)
    (c : ℕ) (h : count_cover anno dets = some c) :
    c ≤ (dets.filter high_conf).length :=
  count_cover_le_high_conf_length anno dets c h

/-- C2 amended witness: a single confident covering detection gives count
`1`, within the bound. -/
theorem count_cover_le_kept_detections_witness :
    (1 : ℕ) ≤ (([⟨5, 5, 10, 10, 1⟩] : List StitchedRect).filter high_conf).length :=
  count_cover_le_kept_detections [⟨5, 5, 10, 10, 1⟩] [⟨0, 0, 10, 10⟩] 1
    (by norm_num [count_cover, anno_overlaps, overlap_union, min_def, max_def])

/-- C10: the covered count returned by the evaluator never exceeds the
number of stitched detections with `true_confidence ≥ 0.9`. -/
theorem get_accuracy_cover_le_confident (dets : List StitchedRect) (anno : List AnnoRect)
    (c t : ℕ) (h : get_accuracy dets anno = some (c, t)) :
    c ≤ (dets.filter high_conf).length := by
  simp only [get_accuracy, Option.map_eq_some'] at h
  obtain ⟨c', hc', heq⟩ := h
  have hcc : c' = c := by
    have := congrArg Prod.fst heq
    simpa using this
  exact count_cover_le_high_conf_length anno dets c (hcc ▸ hc')

/-- C10 witness: one confident detection exactly covering one
ground-truth box gives `(1, 1)`, and `1` is within the bound. -/
theorem get_accuracy_cover_le_confident_witness :
    (1 : ℕ) ≤ (([⟨1, 1, 2, 2, 19/20⟩] : List StitchedRect).filter high_conf).length :=
  get_accuracy_cover_le_confident [⟨1, 1, 2, 2, 19/20⟩] [⟨0, 0, 2, 2⟩] 1 1
    (by norm_num [get_accuracy, count_cover, anno_overlaps, overlap_union, min_def, max_def])

end ReInspect
